import Mathlib

/-
Shallow embedding of `commands/stack_outputs.py` (CloudMapper stack-outputs
command).  Python values that can appear in API responses and in the report
are modelled by the inductive type `PyVal`; Python dicts are insertion-ordered
association lists.  Fallible Python code is modelled in `Except PyError`;
`ClientError` (the botocore remote-service error caught by the code) is kept
separate from the `PyError`s, because the code catches only `ClientError`.
-/

namespace StackOutputs

/-- A Python value as it appears in boto responses and in the JSON report.
`null` is Python `None`; `datetime` carries its ISO-8601 rendering (the value
`x.isoformat()` returns); `bytes` carries its decoded text (the value
`x.decode()` returns); `exc` is a `botocore` `ClientError` object carrying the
string `str(error)` produces; `other` is an object of some other,
non-serializable type, carrying its type name. -/
inductive PyVal where
  | str (s : String)
  | int (n : Int)
  | bool (b : Bool)
  | list (xs : List PyVal)
  | dict (fields : List (String × PyVal))
  | datetime (iso : String)
  | bytes (text : String)
  | exc (msg : String)
  | other (typeName : String)
  | null

/-- A Python dict with `PyVal` values: an insertion-ordered association list. -/
abbrev Dict := List (String × PyVal)

/-- Python exceptions that the modelled code does not catch (they propagate and
crash the process). -/
inductive PyError where
  | keyError (k : String)
  | typeError (msg : String)
  | attributeError (msg : String)
deriving DecidableEq

/-- Python `d[k]` / `d.get(k)` lookup on an association list: first binding for
the key wins (Python dicts have unique keys, so this is exact). -/
def alookup {α : Type} : List (String × α) → String → Option α
  | [], _ => Option.none
  | (k, v) :: rest, key => if k = key then some v else alookup rest key

/-- Python `d[k] = v` on an insertion-ordered dict: an existing key keeps its
position and gets the new value; a new key is appended at the end. -/
def aupdate {α : Type} : List (String × α) → String → α → List (String × α)
  | [], k, v => [(k, v)]
  | (k2, v2) :: rest, k, v =>
    if k2 = k then (k2, v) :: rest else (k2, v2) :: aupdate rest k v

/-- Python `str(x)`.  Only the `exc` case is reached by the code paths the
claims exercise (`str(response['exception'])` in `collect` and
`print(failure)` in `print_summary`); the remaining cases are a coarse total
model. -/
def pyStr : PyVal → String
  | PyVal.str s => s
  | PyVal.int n => toString n
  | PyVal.bool b => cond b "True" "False"
  | PyVal.null => "None"
  | PyVal.exc m => m
  | PyVal.datetime iso => iso
  | PyVal.bytes t => t
  | PyVal.other n => "<" ++ n ++ " object>"
  | PyVal.list _ => "[...]"
  | PyVal.dict _ => "\x7b...\x7d"

/-- The environment seen by `with_retries(max_retries, handler, method_to_call,
parameters)`: the behaviour of the bound triple (handler, method, parameters).
`canPaginate` is `handler.can_paginate(method_to_call)`.  `paginate i` gives,
for the i-th iteration of the attempt loop, the response pages the paginator
yields before either finishing (`Option.none`) or raising a `ClientError` with
the given stringified message.  `call i` is the result of
`getattr(handler, method_to_call)(**parameters)` on the i-th iteration:
either a response dict or a raised `ClientError` message. -/
structure Handler where
  canPaginate : Bool
  paginate : Nat → List Dict × Option String
  call : Nat → Except String Dict

/-- Python `lst.extend(it)` for the iterables a response value can be.  Lists
extend elementwise; a string iterates its characters; a dict iterates its
keys; other values (ints etc.) raise `TypeError`. -/
def pyExtend (l : List PyVal) : PyVal → Except PyError (List PyVal)
  | PyVal.list l2 => Except.ok (l ++ l2)
  | PyVal.str s => Except.ok (l ++ s.data.map (fun c => PyVal.str c.toString))
  | PyVal.dict f => Except.ok (l ++ f.map (fun kv => PyVal.str kv.1))
  | _ => Except.error (PyError.typeError "object is not iterable")

/-- The merge step of `with_retries` for one later page:
`for k in data: if isinstance(data[k], list): data[k].extend(response[k])`.
Keys of `data` are walked in order; list-valued entries are extended with the
response's value at the same key (`response[k]` raises `KeyError` when the
key is missing); other entries are left as they are. -/
def mergePage (response : Dict) : Dict → Except PyError Dict
  | [] => Except.ok []
  | (k, v) :: rest =>
    match v with
    | PyVal.list l =>
      match alookup response k with
      | Option.none => Except.error (PyError.keyError k)
      | some rv =>
        match pyExtend l rv with
        | Except.error e => Except.error e
        | Except.ok l2 =>
          match mergePage response rest with
          | Except.error e => Except.error e
          | Except.ok tail => Except.ok ((k, PyVal.list l2) :: tail)
    | _ =>
      match mergePage response rest with
      | Except.error e => Except.error e
      | Except.ok tail => Except.ok ((k, v) :: tail)

/-- The page loop of `with_retries`: `for response in page_iterator: if not
data: data = response else: <merge>`.  `data` is falsy when it is `None` or an
empty dict. -/
def runPages (data : Option Dict) : List Dict → Except PyError (Option Dict)
  | [] => Except.ok data
  | r :: rest =>
    match data with
    | Option.none => runPages (some r) rest
    | some d =>
      if d.isEmpty then runPages (some r) rest
      else
        match mergePage r d with
        | Except.error e => Except.error e
        | Except.ok d2 => runPages (some d2) rest

/-- One iteration of the attempt loop of `with_retries`.  `Sum.inr msg` means
a `ClientError` with message `msg` was raised during this iteration (to be
caught by the surrounding `except ClientError` clause); `Sum.inl d` is the
value of `data` after the iteration.  When the paginator raises, the pages it
already yielded were merged into `data`, but that partial state is then
discarded by the handler clause. -/
def runAttempt (h : Handler) (i : Nat) (data : Option Dict) :
    Except PyError (Option Dict ⊕ String) :=
  if h.canPaginate then
    match h.paginate i with
    | (pages, err) =>
      match runPages data pages with
      | Except.error e => Except.error e
      | Except.ok d =>
        match err with
        | some msg => Except.ok (Sum.inr msg)
        | Option.none => Except.ok (Sum.inl d)
  else
    match h.call i with
    | Except.error msg => Except.ok (Sum.inr msg)
    | Except.ok d => Except.ok (Sum.inl (some d))

/-- The attempt loop `for retry in range(max_retries)`, threading the mutable
`data` variable.  `i` is the current iteration index, the second argument the
number of iterations left. -/
def attemptLoop (h : Handler) : Nat → Nat → Option Dict →
    Except PyError (Option Dict ⊕ String)
  | _, 0, data => Except.ok (Sum.inl data)
  | i, fuel + 1, data =>
    match runAttempt h i data with
    | Except.error e => Except.error e
    | Except.ok (Sum.inr msg) => Except.ok (Sum.inr msg)
    | Except.ok (Sum.inl d) => attemptLoop h (i + 1) fuel d

/-- `with_retries(max_retries, handler, method_to_call, parameters)`.  The
handler/method/parameters triple is abstracted as `h : Handler`.  A raised
`ClientError` is caught and turned into the dict `{'exception': exception}`;
the final `data` (possibly still `None`) is returned otherwise; any other
Python exception propagates. -/
def with_retries (max_retries : Nat) (h : Handler) :
    Except PyError (Option Dict) :=
  match attemptLoop h 0 max_retries Option.none with
  | Except.error e => Except.error e
  | Except.ok (Sum.inr msg) => Except.ok (some [("exception", PyVal.exc msg)])
  | Except.ok (Sum.inl d) => Except.ok d

/-- Python `str.startswith`: a prefix test on the character sequences of the
two strings. -/
def pyStartswith (s pre : String) : Bool :=
  pre.data.isPrefixOf s.data

/-- The predicate of `filter_by_name`'s lambda,
`stack.get('StackName', '').startswith(target_prefix)`, on one element of the
stack list.  A non-dict element has no `.get` and raises `AttributeError`; so
does a `StackName` value that is not a string (it has no `.startswith`).
Python's `.get` returns the stored value even when that value is `None`, and
returns the default `''` only when the key is absent. -/
def stackMatches ( target_prefix : String) (stack : PyVal) :
    Except PyError Bool :=
  match stack with
  | PyVal.dict fields =>
    match (alookup fields "StackName").getD (PyVal.str "") with
    | PyVal.str s => Except.ok (pyStartswith s target_prefix)
    | _ => Except.error (PyError.attributeError "object has no attribute startswith")
  | _ => Except.error (PyError.attributeError "object has no attribute get")

/-- `filter_by_name(stacks, target_prefix)`: `list(filter(lambda stack: ...,
stacks))`.  `list(...)` forces the lazy filter, evaluating the predicate on
every element in order; the first raised exception propagates. -/
def filter_by_name : List PyVal → String → Except PyError (List PyVal)
  | [], _ => Except.ok []
  | s :: rest, p =>
    match stackMatches p s with
    | Except.error e => Except.error e
    | Except.ok b =>
      match filter_by_name rest p with
      | Except.error e => Except.error e
      | Except.ok tail => Except.ok (if b then s :: tail else tail)

/-- The tail of `collect` after the stack branch falls through:
`if 'exception' in response: return {'exception': str(response['exception'])}`,
and otherwise fall off the end of the function, returning Python `None`
(modelled as `Option.none`). -/
def afterStacks (resp : Dict) : Except PyError (Option Dict)
  :=
  match alookup resp "exception" with
  | some v => Except.ok (some [("exception", PyVal.str (pyStr v))])
  | Option.none => Except.ok Option.none

/-- `collect(profile, region, target_name)`.  Session and client creation are
delegated to boto (out of scope) and abstracted into the `Handler` `h` bound
to the `describe_stacks` operation with empty parameters; `with_retries` is
invoked with attempt count 1.  `response.get('Stacks')` on a `None` response
raises `AttributeError`; a `Stacks` value of `None` (or an absent key) skips
the stack branch; iterating a non-list `Stacks` either raises or, for empty
iterables, matches nothing.  The first filtered stack's
`stack.get('Outputs', [])` is returned as `{'outputs': ...}`; with no match
and no `'exception'` key the function returns `None`. -/
def collect (h : Handler) ( target_name : String) :
    Except PyError (Option Dict) :=
  match with_retries 1 h with
  | Except.error e => Except.error e
  | Except.ok Option.none =>
    Except.error (PyError.attributeError "NoneType object has no attribute get")
  | Except.ok (some resp) =>
    match (alookup resp "Stacks").getD PyVal.null with
    | PyVal.null => afterStacks resp
    | PyVal.list all_stacks =>
      match filter_by_name all_stacks target_name with
      | Except.error e => Except.error e
      | Except.ok [] => afterStacks resp
      | Except.ok (PyVal.dict sf :: _) =>
        Except.ok (some [("outputs", (alookup sf "Outputs").getD (PyVal.list []))])
      | Except.ok (_ :: _) =>
        Except.error (PyError.attributeError "object has no attribute get")
    | PyVal.str s =>
      if s.isEmpty then afterStacks resp
      else Except.error (PyError.attributeError "object has no attribute get")
    | PyVal.dict f =>
      if f.isEmpty then afterStacks resp
      else Except.error (PyError.attributeError "object has no attribute get")
    | _ => Except.error (PyError.typeError "object is not iterable")

/-- `custom_serializer(x)`: `datetime` values are rendered by `x.isoformat()`
(the carried ISO-8601 string), `bytes` by `x.decode()` (the carried text);
anything else raises `TypeError("Unknown type")`.  Both happy paths return a
Python `str`. -/
def custom_serializer : PyVal → Except PyError String
  | PyVal.datetime iso => Except.ok iso
  | PyVal.bytes text => Except.ok text
  | _ => Except.error (PyError.typeError "Unknown type")

/-- JSON string escaping for the characters the report can contain (quote and
backslash; other characters are emitted as they are). -/
def jescape (s : String) : String :=
  String.join (s.data.map fun c =>
    if c = '\\' then "\\\\" else if c = '"' then "\\\"" else c.toString)

/-- A JSON-quoted string. -/
def jquote (s : String) : String :=
  "\"" ++ jescape s ++ "\""

/-- The indentation `json.dumps(..., indent=4)` puts before an element nested
at depth `lvl`: four spaces per level. -/
def indentStr (lvl : Nat) : String :=
  String.join (List.replicate lvl "    ")

/-- Ordering of rendered dict entries by their original key, as produced by
`sort_keys=True`. -/
def sortPairs (kvs : List (String × String)) : List (String × String) :=
  List.insertionSort (fun a b => a.1 ≤ b.1) kvs

instance : IsTotal (String × String) (fun a b => a.1 ≤ b.1) :=
  ⟨fun a b => le_total a.1 b.1⟩

instance : IsTrans (String × String) (fun a b => a.1 ≤ b.1) :=
  ⟨fun _ _ _ h1 h2 => le_trans h1 h2⟩

instance : IsAntisymm (String × String) (fun a b => a.1 < b.1) :=
  ⟨fun a _ h1 h2 => absurd (lt_trans h1 h2) (lt_irrefl a.1)⟩

mutual

/-- `json.dumps(v, indent=4, sort_keys=True, default=custom_serializer)`,
rendered at nesting depth `lvl`.  Strings, ints, bools, `None`, lists and
dicts are serialized natively (dict keys sorted); any other value is passed to
`custom_serializer` and the string it returns is serialized in its place; the
`TypeError` it raises for unknown types propagates.  Each entry of a dict is
rendered independently of the others, so rendering the entries first and then
sorting the (key, rendered value) pairs by key agrees with Python's
sort-then-render order. -/
def dumps : PyVal → Nat → Except PyError String
  | PyVal.str s, _ => Except.ok (jquote s)
  | PyVal.int n, _ => Except.ok (toString n)
  | PyVal.bool b, _ => Except.ok (cond b "true" "false")
  | PyVal.null, _ => Except.ok "null"
  | PyVal.list xs, lvl =>
    match dumpsList xs (lvl + 1) with
    | Except.error e => Except.error e
    | Except.ok [] => Except.ok "[]"
    | Except.ok items =>
      Except.ok ("[\n" ++
        String.intercalate ",\n" (items.map fun it => indentStr (lvl + 1) ++ it) ++
        "\n" ++ indentStr lvl ++ "]")
  | PyVal.dict f, lvl =>
    match dumpsFields f (lvl + 1) with
    | Except.error e => Except.error e
    | Except.ok [] => Except.ok "\x7b\x7d"
    | Except.ok kvs =>
      Except.ok ("\x7b\n" ++
        String.intercalate ",\n" ((sortPairs kvs).map fun kv =>
          indentStr (lvl + 1) ++ jquote kv.1 ++ ": " ++ kv.2) ++
        "\n" ++ indentStr lvl ++ "\x7d")
  | PyVal.datetime iso, _ =>
    match custom_serializer (PyVal.datetime iso) with
    | Except.error e => Except.error e
    | Except.ok s => Except.ok (jquote s)
  | PyVal.bytes text, _ =>
    match custom_serializer (PyVal.bytes text) with
    | Except.error e => Except.error e
    | Except.ok s => Except.ok (jquote s)
  | PyVal.exc m, _ =>
    match custom_serializer (PyVal.exc m) with
    | Except.error e => Except.error e
    | Except.ok s => Except.ok (jquote s)
  | PyVal.other n, _ =>
    match custom_serializer (PyVal.other n) with
    | Except.error e => Except.error e
    | Except.ok s => Except.ok (jquote s)

/-- Renders the elements of a JSON array in order. -/
def dumpsList : List PyVal → Nat → Except PyError (List String)
  | [], _ => Except.ok []
  | v :: rest, lvl =>
    match dumps v lvl with
    | Except.error e => Except.error e
    | Except.ok sv =>
      match dumpsList rest lvl with
      | Except.error e => Except.error e
      | Except.ok tail => Except.ok (sv :: tail)

/-- Renders the entries of a JSON object, keeping each rendered value with its
key so the pairs can then be put in sorted key order. -/
def dumpsFields : List (String × PyVal) → Nat → Except PyError (List (String × String))
  | [], _ => Except.ok []
  | (k, v) :: rest, lvl =>
    match dumps v lvl with
    | Except.error e => Except.error e
    | Except.ok sv =>
      match dumpsFields rest lvl with
      | Except.error e => Except.error e
      | Except.ok tail => Except.ok ((k, sv) :: tail)

end

/-- `write_file(contents, path)`: serializes `contents` and writes the result
to `f"{path}/stack_outputs.json"`.  The file-system write is out of scope; the
model returns the written path and the document text.  `json.dumps` runs to
completion before anything is written, so a serialization error yields no
document. -/
def write_file (contents : PyVal) (path : String) :
    Except PyError (String × String) :=
  match dumps contents 0 with
  | Except.error e => Except.error e
  | Except.ok s => Except.ok (path ++ "/stack_outputs.json", s)

/-- What `print_summary` produced: the lines it printed (separator line
omitted) and the exit code it requested — `some (-1)` when it called
`exit(-1)`, `Option.none` when it returned normally (the script then finishes
and the process exits 0). -/
structure SummaryResult where
  printed : List String
  exitCode : Option Int

/-- The failure-gathering loop of `print_summary`:
`failure = summary[profile].get('exception', None); if failure is not None:
failures.append(failure)`, over the entries in dict order.  An entry whose
value is Python `None` has no `.get` and raises `AttributeError`; a stored
`'exception'` value of `None` is skipped like an absent key. -/
def collectFailures : List (String × Option Dict) → Except PyError (List PyVal)
  | [] => Except.ok []
  | (_, Option.none) :: _ =>
    Except.error (PyError.attributeError "NoneType object has no attribute get")
  | (_, some d) :: rest =>
    match collectFailures rest with
    | Except.error e => Except.error e
    | Except.ok tail =>
      match alookup d "exception" with
      | some PyVal.null => Except.ok tail
      | some v => Except.ok (v :: tail)
      | Option.none => Except.ok tail

/-- `print_summary(summary)`: prints the summary line counting entries and
failures; when failures exist it prints `Failures:`, each failure message, and
calls `exit(-1)`. -/
def print_summary (summary : List (String × Option Dict)) :
    Except PyError SummaryResult :=
  match collectFailures summary with
  | Except.error e => Except.error e
  | Except.ok failures =>
    let line := "Summary: " ++ toString summary.length ++ " APIs called. " ++
      toString failures.length ++ " errors"
    if failures.isEmpty then
      Except.ok { printed := [line], exitCode := Option.none }
    else
      Except.ok { printed := [line, "Failures:"] ++ failures.map pyStr,
                  exitCode := some (-1) }

/-- The per-profile collection loop of `run`:
`for profile in profiles: outcome[profile] = collect(profile, region, target)`.
`envs` abstracts session/client creation: the CloudFormation client each
profile's session yields.  An exception raised inside `collect` propagates and
aborts the loop. -/
def runReport (envs : String → Handler) (target : String) :
    List String → List (String × Option Dict) →
    Except PyError (List (String × Option Dict))
  | [], outcome => Except.ok outcome
  | p :: rest, outcome =>
    match collect (envs p) target with
    | Except.error e => Except.error e
    | Except.ok r => runReport envs target rest (aupdate outcome p r)

/-- The `outcome` dict as the Python value passed to `write_file`: profiles in
dict order, each mapped to its collect result (`None` for a profile whose
collect returned nothing). -/
def outcomeVal (outcome : List (String × Option Dict)) : PyVal :=
  PyVal.dict (outcome.map fun kv =>
    (kv.1, match kv.2 with
           | some d => PyVal.dict d
           | Option.none => PyVal.null))

/-- The core of `run(arguments)` after argument parsing: iterate the profiles
collecting per-profile results, write the aggregate report to
`account-data/stackset/stack_outputs.json`, print the summary, and exit.  The
result is what the process observable behaviour is: the summary lines printed
and the process exit code (0 when `run` returns normally, `-1` when
`print_summary` called `exit(-1)`); an uncaught Python exception is an
`Except.error`. -/
def run (envs : String → Handler) (target : String) (profiles : List String) :
    Except PyError (List String × Int) :=
  match runReport envs target profiles [] with
  | Except.error e => Except.error e
  | Except.ok outcome =>
    match write_file (outcomeVal outcome) "account-data/stackset" with
    | Except.error e => Except.error e
    | Except.ok _ =>
      match print_summary outcome with
      | Except.error e => Except.error e
      | Except.ok r => Except.ok (r.printed, r.exitCode.getD 0)

/-
Spec-side and proof-support definitions.
-/

/-- The name the filter predicate tests for a well-typed stack description:
its `StackName` value, defaulting to the empty string when the key is absent
(the default of `stack.get('StackName', '')`). -/
def stackNameD (s : PyVal) : String :=
  match s with
  | PyVal.dict f =>
    match (alookup f "StackName").getD (PyVal.str "") with
    | PyVal.str n => n
    | _ => ""
  | _ => ""

/-- One stack description is well typed when it is a dict whose `StackName`,
if present, is a string — the shape `describe_stacks` responses have.  On such
an element the filter predicate runs without raising. -/
def stackWT (s : PyVal) : Bool :=
  match s with
  | PyVal.dict f =>
    match (alookup f "StackName").getD (PyVal.str "") with
    | PyVal.str _ => true
    | _ => false
  | _ => false

/-- All elements of a stack list are well-typed stack descriptions. -/
def stacksWellTyped (sts : List PyVal) : Bool :=
  sts.all stackWT

/-- Every list-valued field of `d` is present in `response` with a list value:
the shape under which a later page merges by plain concatenation. -/
def listFieldsOk (d response : Dict) : Bool :=
  d.all fun kv =>
    match kv.2 with
    | PyVal.list _ =>
      match alookup response kv.1 with
      | some (PyVal.list _) => true
      | _ => false
    | _ => true

/-- Value of one field of the accumulated data after merging in a later
page. -/
def mergeVal (response : Dict) (k : String) (v : PyVal) : PyVal :=
  match v with
  | PyVal.list l =>
    match alookup response k with
    | some (PyVal.list l2) => PyVal.list (l ++ l2)
    | _ => v
  | _ => v

/-- Concatenation of `k` copies of a list. -/
def nconcat {α : Type} : Nat → List α → List α
  | 0, _ => []
  | n + 1, s => s ++ nconcat n s

/-- A paginated handler yielding, on every iteration of the attempt loop, the
single page `{'Stacks': s}`. -/
def onePageHandler (s : List PyVal) : Handler :=
  { canPaginate := true
    paginate := fun _ => ([[("Stacks", PyVal.list s)]], Option.none)
    call := fun _ => Except.ok [] }

/-- Observable used to discriminate merged results: the length of the
`Stacks` list of a successful `with_retries` result. -/
def stacksLen (r : Except PyError (Option Dict)) : Nat :=
  match r with
  | Except.ok (some d) =>
    match alookup d "Stacks" with
    | some (PyVal.list l) => l.length
    | _ => 0
  | _ => 0

/-- A collect result is the Success variant when it carries an `outputs`
mapping. -/
def isSuccessResult (r : Option Dict) : Bool :=
  match r with
  | some d => (alookup d "outputs").isSome
  | Option.none => false

/-- A collect result is the Failure variant when it carries an `exception`
mapping. -/
def isFailureResult (r : Option Dict) : Bool :=
  match r with
  | some d => (alookup d "exception").isSome
  | Option.none => false

/-- A summary entry that `print_summary` counts as a failure: it holds a dict
whose `exception` value exists and is not `None`. -/
def isFailureEntry (v : Option Dict) : Bool :=
  match v with
  | some d =>
    match alookup d "exception" with
    | some PyVal.null => false
    | some _ => true
    | Option.none => false
  | Option.none => false

/-- The failure value one summary entry contributes: the entry's
`exception` value when it exists and is not `None`. -/
def failureVal (v : Option Dict) : Option PyVal :=
  match v with
  | some d =>
    match alookup d "exception" with
    | some PyVal.null => Option.none
    | some w => some w
    | Option.none => Option.none
  | Option.none => Option.none

/-- The failure values `print_summary` gathers from a summary whose entries
all hold dicts, in entry order. -/
def failuresOf (outcome : List (String × Option Dict)) : List PyVal :=
  outcome.filterMap fun kv => failureVal kv.2

/-- Every value of a dict renders without a serialization error at depth
`lvl`. -/
def fieldsRenderOk (f : List (String × PyVal)) (lvl : Nat) : Prop :=
  ∀ kv ∈ f, (dumps kv.2 lvl).isOk = true

/-- The (key, rendered value) pair of a dict entry, meaningful when the value
renders successfully. -/
def renderV (lvl : Nat) (kv : String × PyVal) : String × String :=
  (kv.1, match dumps kv.2 lvl with
         | Except.ok s => s
         | Except.error _ => "")

/-- Boolean substring test, used to state that an error message names (or
fails to name) a type. -/
def containsSub (s sub : String) : Bool :=
  (List.range (s.data.length + 1)).any fun i => sub.data.isPrefixOf (s.data.drop i)

/-- Fields of a stack named `proj-a` carrying one output. -/
def paFields : List (String × PyVal) :=
  [("StackName", PyVal.str "proj-a"), ("Outputs", PyVal.list [PyVal.str "o1"])]

/-- A stack named `x` (no outputs). -/
def stackX : PyVal := PyVal.dict [("StackName", PyVal.str "x")]

/-- The stack named `proj-a`. -/
def stackPA : PyVal := PyVal.dict paFields

/-- A stack named `proj-b` carrying one output. -/
def stackPB : PyVal :=
  PyVal.dict [("StackName", PyVal.str "proj-b"),
              ("Outputs", PyVal.list [PyVal.str "o2"])]

/-- A handler whose describe-stacks response has stacks named `x`, `proj-a`
and `proj-b`, the matching ones carrying outputs. -/
def matchedHandler : Handler :=
  { canPaginate := true
    paginate := fun _ =>
      ([[("Stacks", PyVal.list [stackX, stackPA, stackPB])]], Option.none)
    call := fun _ => Except.ok [] }

/-- A non-paginated handler whose call raises
`ClientError("AccessDenied")`. -/
def failHandler : Handler :=
  { canPaginate := false
    paginate := fun _ => ([], Option.none)
    call := fun _ => Except.error "AccessDenied" }

/-- A handler whose describe-stacks response has an empty stack list, so no
stack can match any target prefix. -/
def zeroMatchHandler : Handler :=
  { canPaginate := true
    paginate := fun _ => ([[("Stacks", PyVal.list [])]], Option.none)
    call := fun _ => Except.ok [] }

/-- A two-profile environment: profile `a` sees `matchedHandler`, every other
profile sees `failHandler`. -/
def mixedEnvs : String → Handler :=
  fun p => if p = "a" then matchedHandler else failHandler

/-- First page of `twoPageHandler`'s paginator. -/
def wPage1 : Dict :=
  [("Stacks", PyVal.list [PyVal.str "a"]), ("Meta", PyVal.int 7)]

/-- Second page of `twoPageHandler`'s paginator. -/
def wPage2 : Dict :=
  [("Stacks", PyVal.list [PyVal.str "b", PyVal.str "c"]),
   ("Meta", PyVal.int 9)]

/-- A two-page paginated handler used to exercise the pagination merge. -/
def twoPageHandler : Handler :=
  { canPaginate := true
    paginate := fun _ => ([wPage1, wPage2], Option.none)
    call := fun _ => Except.ok [] }

/-- A non-paginated handler whose call always returns the same response. -/
def constCallHandler : Handler :=
  { canPaginate := false
    paginate := fun _ => ([], Option.none)
    call := fun _ => Except.ok [("Marker", PyVal.int 1)] }

/-- The outcome dict of running `mixedEnvs` over profiles `a`, `b` with
target `proj`. -/
def wOutcome : List (String × Option Dict) :=
  [("a", some [("outputs", PyVal.list [PyVal.str "o1"])]),
   ("b", some [("exception", PyVal.str "AccessDenied")])]

/-- A small concrete stack list for witnesses. -/
def wStacks : List PyVal :=
  [PyVal.dict [("StackName", PyVal.str "proj-a")],
   PyVal.dict [("StackName", PyVal.str "x")]]

/-
Theorems.
-/

theorem pyStartswith_empty (s : String) : pyStartswith s "" = true := by
  simp [pyStartswith]

theorem stackMatches_wt (p : String) (s : PyVal) (hw : stackWT s = true) :
    stackMatches p s = Except.ok (pyStartswith (stackNameD s) p) := by
  unfold stackWT at hw
  split at hw
  · next f =>
    split at hw
    · next n heq => simp only [stackMatches, stackNameD, heq]
    · exact absurd hw (by simp)
  · exact absurd hw (by simp)

theorem filter_by_name_wt (sts : List PyVal) (p : String)
    (hw : stacksWellTyped sts = true) :
    filter_by_name sts p =
      Except.ok (sts.filter fun s => pyStartswith (stackNameD s) p) := by
  induction sts with
  | nil => rfl
  | cons s rest ih =>
    rw [stacksWellTyped, List.all_cons, Bool.and_eq_true] at hw
    rw [filter_by_name, stackMatches_wt p s hw.1,
      ih (by rw [stacksWellTyped]; exact hw.2), List.filter_cons]

/-- C1: for a well-typed stack list, `filter_by_name` returns exactly the
stacks whose name starts with the given prefix — it equals `List.filter` of
the name test, which keeps the original relative order and drops all others —
and with the empty prefix it returns the whole list. -/
theorem C1_stack_filter (sts : List PyVal) (p : String)
    (hw : stacksWellTyped sts = true) :
    filter_by_name sts p =
      Except.ok (sts.filter fun s => pyStartswith (stackNameD s) p) ∧
    filter_by_name sts "" = Except.ok sts := by
  refine ⟨filter_by_name_wt sts p hw, ?_⟩
  rw [filter_by_name_wt sts "" hw]
  congr 1
  exact List.filter_eq_self.mpr fun s _ => pyStartswith_empty (stackNameD s)

/-- Witness for C1: the hypothesis and both conclusions at a concrete stack
list and prefix. -/
theorem C1_stack_filter_witness :
    stacksWellTyped wStacks = true ∧
    filter_by_name wStacks "proj" =
      Except.ok (wStacks.filter fun s => pyStartswith (stackNameD s) "proj") ∧
    filter_by_name wStacks "" = Except.ok wStacks :=
  ⟨rfl, (C1_stack_filter wStacks "proj" rfl).1, (C1_stack_filter wStacks "proj" rfl).2⟩

/-- C5: when the describe-stacks call succeeds with a list of stacks and the
filter finds at least one match, `collect` returns `{'outputs': ...}` built
from the first matching stack's `Outputs` (defaulting to `[]` when the key is
absent), ignoring every remaining match. -/
theorem C5_first_match (h : Handler) ( target_name : String) (resp : Dict)
    (sts : List PyVal) (sf : List (String × PyVal)) (rest : List PyVal)
    (hwr : with_retries 1 h = Except.ok (some resp))
    (hst : alookup resp "Stacks" = some (PyVal.list sts))
    (hfl : filter_by_name sts target_name = Except.ok (PyVal.dict sf :: rest)) :
    collect h target_name =
      Except.ok (some [("outputs", (alookup sf "Outputs").getD (PyVal.list []))]) := by
  simp only [collect, hwr, hst, Option.getD_some, hfl]

/-- Witness for C5: the hypotheses and the conclusion at `matchedHandler` with
prefix `proj` — the outputs come from `proj-a`, the first match, not from
`proj-b`. -/
theorem C5_first_match_witness :
    with_retries 1 matchedHandler =
      Except.ok (some [("Stacks", PyVal.list [stackX, stackPA, stackPB])]) ∧
    filter_by_name [stackX, stackPA, stackPB] "proj" =
      Except.ok (PyVal.dict paFields :: [stackPB]) ∧
    collect matchedHandler "proj" =
      Except.ok (some [("outputs", (alookup paFields "Outputs").getD (PyVal.list []))]) :=
  ⟨rfl, rfl,
    C5_first_match matchedHandler "proj" _ _ paFields [stackPB] rfl rfl rfl⟩

theorem wr_clientError (h : Handler) (msg : String) (k : Nat) (hk : 1 ≤ k)
    (herr : if h.canPaginate = true then
              ∃ pages d, h.paginate 0 = (pages, some msg) ∧
                runPages Option.none pages = Except.ok d
            else h.call 0 = Except.error msg) :
    with_retries k h = Except.ok (some [("exception", PyVal.exc msg)]) := by
  obtain ⟨fuel, rfl⟩ : ∃ fuel, k = fuel + 1 := ⟨k - 1, by omega⟩
  have hatt : runAttempt h 0 Option.none = Except.ok (Sum.inr msg) := by
    by_cases hc : h.canPaginate = true
    · rw [if_pos hc] at herr
      obtain ⟨pages, d, hp, hrp⟩ := herr
      simp only [runAttempt, hc, if_true, hp, hrp]
    · rw [if_neg hc] at herr
      rw [Bool.not_eq_true] at hc
      simp only [runAttempt, hc, Bool.false_eq_true, if_false, herr]
  simp only [with_retries, attemptLoop, hatt]

/-- C4: a `ClientError` raised during the call (whether by the paginator or by
the direct call) on the first loop iteration is caught and converted into the
failure dict `{'exception': error}`; it aborts the attempt loop immediately —
the result does not depend on what any later iteration would do — and it is
returned as a value, never re-raised.  At the `collect` level the failure
message is the stringified error. -/
theorem C4_client_error (h : Handler) (msg : String) (k : Nat) (hk : 1 ≤ k)
    (herr : if h.canPaginate = true then
              ∃ pages d, h.paginate 0 = (pages, some msg) ∧
                runPages Option.none pages = Except.ok d
            else h.call 0 = Except.error msg) :
    with_retries k h = Except.ok (some [("exception", PyVal.exc msg)]) ∧
    ∀ t, collect h t = Except.ok (some [("exception", PyVal.str msg)]) := by
  refine ⟨wr_clientError h msg k hk herr, fun t => ?_⟩
  have h1 := wr_clientError h msg 1 (le_refl 1) herr
  simp [collect, h1, afterStacks, alookup, pyStr]

/-- Witness for C4: the hypotheses and both conclusions at the concrete
non-paginated `failHandler`, whose call raises `AccessDenied`, with attempt
count 2. -/
theorem C4_client_error_witness :
    1 ≤ 2 ∧
    failHandler.call 0 = Except.error "AccessDenied" ∧
    with_retries 2 failHandler =
      Except.ok (some [("exception", PyVal.exc "AccessDenied")]) ∧
    collect failHandler "proj" =
      Except.ok (some [("exception", PyVal.str "AccessDenied")]) :=
  ⟨by decide, rfl,
    (C4_client_error failHandler "AccessDenied" 2 (by decide)
      (by simp [failHandler])).1,
    (C4_client_error failHandler "AccessDenied" 2 (by decide)
      (by simp [failHandler])).2 "proj"⟩

theorem alookup_isEmpty {α : Type} (l : List (String × α)) (key : String)
    (v : α) (h : alookup l key = some v) : l.isEmpty = false := by
  cases l with
  | nil => simp [alookup] at h
  | cons kv rest => rfl

theorem alookup_map_val {β : Type} (g : String → PyVal → β) (l : Dict)
    (key : String) :
    alookup (l.map fun kv => (kv.1, g kv.1 kv.2)) key =
      (alookup l key).map (g key) := by
  induction l with
  | nil => rfl
  | cons kv rest ih =>
    obtain ⟨k, v⟩ := kv
    by_cases hk : k = key
    · subst hk; simp [alookup]
    · simp [alookup, hk, ih]

theorem mergePage_ok (response d : Dict) (hok : listFieldsOk d response = true) :
    mergePage response d =
      Except.ok (d.map fun kv => (kv.1, mergeVal response kv.1 kv.2)) := by
  induction d with
  | nil => rfl
  | cons kv rest ih =>
    obtain ⟨k, v⟩ := kv
    rw [listFieldsOk, List.all_cons, Bool.and_eq_true] at hok
    obtain ⟨hh, ht⟩ := hok
    have ih2 := ih (by rw [listFieldsOk]; exact ht)
    cases v with
    | list l =>
      cases hl : alookup response k with
      | none => rw [hl] at hh; exact absurd hh (by simp)
      | some rv =>
        rw [hl] at hh
        cases rv <;> simp_all [mergePage, pyExtend, mergeVal]
    | str s => simp [mergePage, ih2, mergeVal]
    | int n => simp [mergePage, ih2, mergeVal]
    | bool b => simp [mergePage, ih2, mergeVal]
    | dict f => simp [mergePage, ih2, mergeVal]
    | datetime iso => simp [mergePage, ih2, mergeVal]
    | bytes t => simp [mergePage, ih2, mergeVal]
    | exc m => simp [mergePage, ih2, mergeVal]
    | other n => simp [mergePage, ih2, mergeVal]
    | null => simp [mergePage, ih2, mergeVal]

/-- C2: a paginated call whose two pages both carry a list-valued `Stacks`
field (and whose other list-valued first-page fields recur on the second
page) merges into a result whose `Stacks` is the concatenation
`P1.Stacks ++ P2.Stacks` in page order, while every non-list field of the
first page is kept as it was. -/
theorem C2_pagination_merge (h : Handler) (P1 P2 : Dict) (s1 s2 : List PyVal)
    (hpag : h.canPaginate = true)
    (hpages : h.paginate 0 = ([P1, P2], Option.none))
    (h1 : alookup P1 "Stacks" = some (PyVal.list s1))
    (h2 : alookup P2 "Stacks" = some (PyVal.list s2))
    (hok : listFieldsOk P1 P2 = true) :
    ∃ D, with_retries 1 h = Except.ok (some D) ∧
      alookup D "Stacks" = some (PyVal.list (s1 ++ s2)) ∧
      ∀ k v, alookup P1 k = some v → (∀ l, v ≠ PyVal.list l) →
        alookup D k = some v := by
  refine ⟨P1.map fun kv => (kv.1, mergeVal P2 kv.1 kv.2), ?_, ?_, ?_⟩
  · have hrp : runPages Option.none [P1, P2] =
        Except.ok (some (P1.map fun kv => (kv.1, mergeVal P2 kv.1 kv.2))) := by
      simp only [runPages, alookup_isEmpty P1 "Stacks" _ h1, Bool.false_eq_true,
        if_false, mergePage_ok P2 P1 hok]
    simp only [with_retries, attemptLoop, runAttempt, hpag, if_true, hpages,
      hrp]
  · rw [alookup_map_val (mergeVal P2) P1 "Stacks", h1]
    simp [mergeVal, h2]
  · intro k v hv hnl
    rw [alookup_map_val (mergeVal P2) P1 k, hv]
    cases v <;> first | exact absurd rfl (hnl _) | simp [mergeVal]

/-- Witness for C2: the hypotheses and the conclusion at the concrete
two-page handler. -/
theorem C2_pagination_merge_witness :
    twoPageHandler.canPaginate = true ∧
    twoPageHandler.paginate 0 = ([wPage1, wPage2], Option.none) ∧
    alookup wPage1 "Stacks" = some (PyVal.list [PyVal.str "a"]) ∧
    alookup wPage2 "Stacks" = some (PyVal.list [PyVal.str "b", PyVal.str "c"]) ∧
    listFieldsOk wPage1 wPage2 = true ∧
    (∃ D, with_retries 1 twoPageHandler = Except.ok (some D) ∧
      alookup D "Stacks" =
        some (PyVal.list ([PyVal.str "a"] ++ [PyVal.str "b", PyVal.str "c"])) ∧
      ∀ k v, alookup wPage1 k = some v → (∀ l, v ≠ PyVal.list l) →
        alookup D k = some v) :=
  ⟨rfl, rfl, rfl, rfl, rfl,
    C2_pagination_merge twoPageHandler wPage1 wPage2 _ _ rfl rfl rfl rfl rfl⟩

theorem constCall_loop (h : Handler) (d : Dict) (hc : h.canPaginate = false)
    (hcall : ∀ i, h.call i = Except.ok d) (fuel : Nat) :
    ∀ (i : Nat) (data : Option Dict),
      attemptLoop h i (fuel + 1) data = Except.ok (Sum.inl (some d)) := by
  induction fuel with
  | zero =>
    intro i data
    simp [attemptLoop, runAttempt, hc, hcall]
  | succ n ih =>
    intro i data
    rw [show n + 1 + 1 = (n + 1) + 1 from rfl, attemptLoop]
    simp only [runAttempt, hc, Bool.false_eq_true, if_false, hcall]
    exact ih (i + 1) (some d)

theorem onePageHandler_canPaginate (s : List PyVal) :
    (onePageHandler s).canPaginate = true := rfl

theorem onePageHandler_paginate (s : List PyVal) (i : Nat) :
    (onePageHandler s).paginate i =
      ([[("Stacks", PyVal.list s)]], Option.none) := rfl

theorem onePage_loop (s : List PyVal) (fuel : Nat) :
    ∀ (i : Nat) (t : List PyVal),
      attemptLoop (onePageHandler s) i fuel
          (some [("Stacks", PyVal.list t)]) =
        Except.ok (Sum.inl (some [("Stacks", PyVal.list (t ++ nconcat fuel s))])) := by
  induction fuel with
  | zero =>
    intro i t
    simp [attemptLoop, nconcat]
  | succ n ih =>
    intro i t
    rw [attemptLoop]
    simp only [runAttempt, onePageHandler_canPaginate, onePageHandler_paginate,
      if_true, runPages, List.isEmpty_cons, Bool.false_eq_true, if_false,
      mergePage, alookup, if_pos rfl, pyExtend]
    rw [ih (i + 1) (t ++ s)]
    simp [nconcat, List.append_assoc]

/-- C3 counterexample: for the paginated one-page handler, running the
attempt loop twice does not give the result of a single attempt — the second
iteration merges its page into the data accumulated by the first, duplicating
the `Stacks` list — so the claim that the final merged result after k
attempts equals the result of a single attempt is false at k = 2. -/
theorem C3_counterexample :
    with_retries 2 (onePageHandler [PyVal.str "s"]) ≠
      with_retries 1 (onePageHandler [PyVal.str "s"]) :=
  fun hEq => absurd (congrArg stacksLen hEq) (by decide)

/-- C3 (amended): the attempt loop runs `max_retries` times unconditionally
(not triggered by failure), and for a non-paginated operation each iteration
re-executes the call and overwrites `data`, so the result after k ≥ 1
attempts equals that of a single attempt; but for a paginated operation the
later iterations merge their pages into the data already accumulated —
nothing is reset between attempts — so every list field accumulates one copy
per attempt (`nconcat k s` is k copies of `s` concatenated). -/
theorem C3_amended_retries (h : Handler) (d : Dict) (k : Nat)
    (hc : h.canPaginate = false) (hcall : ∀ i, h.call i = Except.ok d)
    (hk : 1 ≤ k) (s : List PyVal) :
    with_retries k h = with_retries 1 h ∧
    with_retries k (onePageHandler s) =
      Except.ok (some [("Stacks", PyVal.list (nconcat k s))]) := by
  obtain ⟨fuel, rfl⟩ : ∃ fuel, k = fuel + 1 := ⟨k - 1, by omega⟩
  constructor
  · rw [with_retries, with_retries, constCall_loop h d hc hcall fuel 0 Option.none,
      constCall_loop h d hc hcall 0 0 Option.none]
  · rw [with_retries, attemptLoop]
    simp only [runAttempt, onePageHandler_canPaginate, onePageHandler_paginate,
      if_true, runPages]
    rw [onePage_loop s fuel (0 + 1) s]
    rfl

/-- Witness for C3 (amended): both conclusions at the concrete constant-call
handler with attempt count 3 and the one-page handler. -/
theorem C3_amended_retries_witness :
    constCallHandler.canPaginate = false ∧
    constCallHandler.call 0 = Except.ok [("Marker", PyVal.int 1)] ∧
    with_retries 3 constCallHandler = with_retries 1 constCallHandler ∧
    with_retries 3 (onePageHandler [PyVal.str "s"]) =
      Except.ok (some [("Stacks",
        PyVal.list (nconcat 3 [PyVal.str "s"]))]) :=
  ⟨rfl, rfl,
    (C3_amended_retries constCallHandler [("Marker", PyVal.int 1)] 3 rfl
      (fun _ => rfl) (by decide) [PyVal.str "s"]).1,
    (C3_amended_retries constCallHandler [("Marker", PyVal.int 1)] 3 rfl
      (fun _ => rfl) (by decide) [PyVal.str "s"]).2⟩

theorem aupdate_not_mem {α : Type} (l : List (String × α)) (k : String) (v : α)
    (hk : k ∉ l.map Prod.fst) : aupdate l k v = l ++ [(k, v)] := by
  induction l with
  | nil => rfl
  | cons kv rest ih =>
    obtain ⟨k2, v2⟩ := kv
    simp only [List.map_cons, List.mem_cons] at hk
    push_neg at hk
    rw [aupdate, if_neg (fun hh => hk.1 hh.symm), ih hk.2]
    rfl

theorem runReport_ok (envs : String → Handler) (target : String)
    (res : String → Option Dict) :
    ∀ (profiles : List String) (acc : List (String × Option Dict)),
      profiles.Nodup →
      (∀ p ∈ profiles, collect (envs p) target = Except.ok (res p)) →
      (∀ p ∈ profiles, p ∉ acc.map Prod.fst) →
      runReport envs target profiles acc =
        Except.ok (acc ++ profiles.map fun p => (p, res p)) := by
  intro profiles
  induction profiles with
  | nil =>
    intro acc _ _ _
    simp [runReport]
  | cons p rest ih =>
    intro acc hnd hcol hdisj
    rw [runReport, hcol p (List.mem_cons_self p rest)]
    dsimp only
    rw [aupdate_not_mem acc p (res p) (hdisj p (List.mem_cons_self p rest)),
      ih (acc ++ [(p, res p)]) (List.nodup_cons.mp hnd).2
        (fun q hq => hcol q (List.mem_cons_of_mem p hq))
        (fun q hq => by
          have hq1 := hdisj q (List.mem_cons_of_mem p hq)
          have hq2 : q ≠ p := fun hqp => (List.nodup_cons.mp hnd).1 (hqp ▸ hq)
          simp [hq1, hq2])]
    simp

/-- C8: when each profile's collect call returns a result, the orchestrator
loop processes the profiles strictly in the given order and records each
profile's own result under that profile — so a Failure result for one profile
does not change how later profiles are collected or recorded. -/
theorem C8_failure_isolation (envs : String → Handler) (target : String)
    (res : String → Option Dict) (profiles : List String)
    (hnd : profiles.Nodup)
    (hcol : ∀ p ∈ profiles, collect (envs p) target = Except.ok (res p)) :
    runReport envs target profiles [] =
      Except.ok (profiles.map fun p => (p, res p)) := by
  simpa using runReport_ok envs target res profiles [] hnd hcol (by simp)

/-- Witness for C8: a run over profiles `a` (which succeeds) and `b` (whose
call raises): `b` is still collected and recorded after `a`, in order. -/
theorem C8_failure_isolation_witness :
    (["a", "b"] : List String).Nodup ∧
    collect (mixedEnvs "a") "proj" =
      Except.ok (some [("outputs", PyVal.list [PyVal.str "o1"])]) ∧
    collect (mixedEnvs "b") "proj" =
      Except.ok (some [("exception", PyVal.str "AccessDenied")]) ∧
    runReport mixedEnvs "proj" ["a", "b"] [] =
      Except.ok ((["a", "b"] : List String).map fun p =>
        (p, if p = "a" then some [("outputs", PyVal.list [PyVal.str "o1"])]
            else some [("exception", PyVal.str "AccessDenied")])) :=
  ⟨by decide, rfl, rfl,
    C8_failure_isolation mixedEnvs "proj"
      (fun p => if p = "a" then some [("outputs", PyVal.list [PyVal.str "o1"])]
                else some [("exception", PyVal.str "AccessDenied")])
      ["a", "b"] (by decide)
      (by intro p hp; fin_cases hp <;> rfl)⟩

theorem collect_shape (h : Handler) (t : String) (r : Option Dict)
    (hr : collect h t = Except.ok r) :
    r = Option.none ∨ (∃ v, r = some [("outputs", v)]) ∨
      (∃ m, r = some [("exception", PyVal.str m)]) := by
  unfold collect afterStacks at hr
  repeat' split at hr
  all_goals try exact Except.noConfusion hr
  all_goals injection hr with hr
  all_goals subst hr
  all_goals simp

theorem mem_aupdate_keys {α : Type} (l : List (String × α)) (k : String)
    (v : α) (q : String) :
    q ∈ (aupdate l k v).map Prod.fst ↔ q ∈ l.map Prod.fst ∨ q = k := by
  induction l with
  | nil => simp [aupdate]
  | cons kv rest ih =>
    obtain ⟨k2, v2⟩ := kv
    by_cases hk : k2 = k
    · subst hk
      rw [aupdate, if_pos rfl]
      simp only [List.map_cons, List.mem_cons]
      tauto
    · rw [aupdate, if_neg hk]
      simp only [List.map_cons, List.mem_cons, ih]
      tauto

theorem aupdate_keys_nodup {α : Type} (l : List (String × α)) (k : String)
    (v : α) (h : (l.map Prod.fst).Nodup) :
    ((aupdate l k v).map Prod.fst).Nodup := by
  induction l with
  | nil => simp [aupdate]
  | cons kv rest ih =>
    obtain ⟨k2, v2⟩ := kv
    simp only [List.map_cons, List.nodup_cons] at h
    by_cases hk : k2 = k
    · subst hk
      rw [aupdate, if_pos rfl]
      simp only [List.map_cons, List.nodup_cons]
      exact h
    · rw [aupdate, if_neg hk]
      simp only [List.map_cons, List.nodup_cons, mem_aupdate_keys]
      exact ⟨by tauto, ih h.2⟩

theorem runReport_keys (envs : String → Handler) (target : String) :
    ∀ (profiles : List String) (acc outcome : List (String × Option Dict)),
      runReport envs target profiles acc = Except.ok outcome →
      ((acc.map Prod.fst).Nodup → (outcome.map Prod.fst).Nodup) ∧
      (∀ q, q ∈ outcome.map Prod.fst ↔ q ∈ acc.map Prod.fst ∨ q ∈ profiles) := by
  intro profiles
  induction profiles with
  | nil =>
    intro acc outcome hrr
    rw [runReport] at hrr
    injection hrr with hrr
    subst hrr
    simp
  | cons p rest ih =>
    intro acc outcome hrr
    rw [runReport] at hrr
    split at hrr
    · exact absurd hrr (by simp)
    · next r heq =>
      obtain ⟨ihn, ihm⟩ := ih (aupdate acc p r) outcome hrr
      refine ⟨fun hn => ihn (aupdate_keys_nodup acc p r hn), fun q => ?_⟩
      rw [ihm q, mem_aupdate_keys]
      simp only [List.mem_cons]
      tauto

/-- C9 counterexample: at `zeroMatchHandler` — a successful describe-stacks
call with an empty stack list, so no stack matches — `collect` produces the
absent value `None`, which is neither the Success variant (no `outputs` key)
nor the Failure variant (no `exception` key), refuting the claim that every
produced CollectionResult is one of exactly those two variants. -/
theorem C9_counterexample :
    collect zeroMatchHandler "proj" = Except.ok Option.none ∧
    isSuccessResult Option.none = false ∧
    isFailureResult Option.none = false :=
  ⟨rfl, rfl, rfl⟩

/-- C9 (amended): every result `collect` returns is the Success dict
`{'outputs': ...}`, the Failure dict `{'exception': ...}` — each carrying
exactly its own key, so when a result is present exactly one variant is
populated — or the absent value `None` (the zero-match case); and the
RunReport holds exactly one entry per distinct requested profile. -/
theorem C9_amended_variants (h : Handler) (t : String) (r : Option Dict)
    (hr : collect h t = Except.ok r) :
    (r = Option.none ∨ (∃ v, r = some [("outputs", v)]) ∨
      (∃ m, r = some [("exception", PyVal.str m)])) ∧
    (∀ (envs : String → Handler) (target : String) (profiles : List String)
        (outcome : List (String × Option Dict)),
      runReport envs target profiles [] = Except.ok outcome →
      (outcome.map Prod.fst).Nodup ∧
      ∀ q, q ∈ outcome.map Prod.fst ↔ q ∈ profiles) := by
  refine ⟨collect_shape h t r hr,
    fun envs target profiles outcome hrr => ?_⟩
  obtain ⟨hn, hm⟩ := runReport_keys envs target profiles [] outcome hrr
  exact ⟨hn (by simp), fun q => by simpa using hm q⟩

/-- Witness for C9 (amended): the hypothesis and both conclusions at the
concrete `matchedHandler` collect call and the concrete `mixedEnvs` run. -/
theorem C9_amended_variants_witness :
    collect matchedHandler "proj" =
      Except.ok (some [("outputs", PyVal.list [PyVal.str "o1"])]) ∧
    ((some [("outputs", PyVal.list [PyVal.str "o1"])] : Option Dict) =
        Option.none ∨
      (∃ v, (some [("outputs", PyVal.list [PyVal.str "o1"])] : Option Dict) =
        some [("outputs", v)]) ∨
      (∃ m, (some [("outputs", PyVal.list [PyVal.str "o1"])] : Option Dict) =
        some [("exception", PyVal.str m)])) ∧
    (wOutcome.map Prod.fst).Nodup ∧
    (∀ q, q ∈ wOutcome.map Prod.fst ↔ q ∈ ["a", "b"]) :=
  ⟨rfl,
    (C9_amended_variants matchedHandler "proj" _ rfl).1,
    ((C9_amended_variants matchedHandler "proj" _ rfl).2
      mixedEnvs "proj" ["a", "b"] wOutcome rfl).1,
    ((C9_amended_variants matchedHandler "proj" _ rfl).2
      mixedEnvs "proj" ["a", "b"] wOutcome rfl).2⟩

theorem collectFailures_none_entry :
    ∀ (pre : List (String × Option Dict)) (q : String)
      (post : List (String × Option Dict)),
      (∀ kv ∈ pre, kv.2.isSome = true) →
      collectFailures (pre ++ (q, Option.none) :: post) =
        Except.error (PyError.attributeError "NoneType object has no attribute get") := by
  intro pre
  induction pre with
  | nil => intro q post _; rfl
  | cons kv rest ih =>
    intro q post hp
    obtain ⟨k, v⟩ := kv
    have hv := hp (k, v) (List.mem_cons_self _ _)
    cases v with
    | none => simp at hv
    | some d =>
      rw [List.cons_append, collectFailures,
        ih q post (fun kv2 h2 => hp kv2 (List.mem_cons_of_mem _ h2))]

/-- C10: when the describe-stacks call succeeds but no stack matches the
target prefix (and no exception was recorded), `collect` returns Python
`None` — neither an `outputs` nor an `exception` mapping — and
`print_summary` on a summary holding such a `None` entry raises
`AttributeError` at that entry's `.get` lookup, so the summary line is never
produced and the process dies with an uncaught exception instead of the
defined exit codes. -/
theorem C10_none_crash (h : Handler) (t : String) (resp : Dict)
    (sts : List PyVal)
    (hwr : with_retries 1 h = Except.ok (some resp))
    (hst : alookup resp "Stacks" = some (PyVal.list sts))
    (hfl : filter_by_name sts t = Except.ok [])
    (hexc : alookup resp "exception" = Option.none) :
    collect h t = Except.ok Option.none ∧
    ∀ (pre post : List (String × Option Dict)) (q : String),
      (∀ kv ∈ pre, kv.2.isSome = true) →
      print_summary (pre ++ (q, Option.none) :: post) =
        Except.error (PyError.attributeError "NoneType object has no attribute get") := by
  constructor
  · simp only [collect, hwr, hst, Option.getD_some, hfl, afterStacks, hexc]
  · intro pre post q hp
    rw [print_summary, collectFailures_none_entry pre q post hp]

/-- Witness for C10: the hypotheses and both conclusions at the concrete
zero-match handler, and a summary in which profile `b` holds the `None`
entry. -/
theorem C10_none_crash_witness :
    with_retries 1 zeroMatchHandler =
      Except.ok (some [("Stacks", PyVal.list [])]) ∧
    filter_by_name [] "proj" = Except.ok [] ∧
    collect zeroMatchHandler "proj" = Except.ok Option.none ∧
    print_summary [("a", some [("outputs", PyVal.list [PyVal.str "o1"])]),
                   ("b", Option.none)] =
      Except.error (PyError.attributeError "NoneType object has no attribute get") := by
  refine ⟨rfl, rfl, ?_, ?_⟩
  · exact (C10_none_crash zeroMatchHandler "proj" _ [] rfl rfl rfl rfl).1
  · exact (C10_none_crash zeroMatchHandler "proj" _ [] rfl rfl rfl rfl).2
      [("a", some [("outputs", PyVal.list [PyVal.str "o1"])])] [] "b"
      (by intro kv h2; fin_cases h2; rfl)

theorem collectFailures_proper :
    ∀ (outcome : List (String × Option Dict)),
      (∀ kv ∈ outcome, kv.2.isSome = true) →
      collectFailures outcome = Except.ok (failuresOf outcome) := by
  intro outcome
  induction outcome with
  | nil => intro _; rfl
  | cons kv rest ih =>
    intro hp
    obtain ⟨k, v⟩ := kv
    have hv := hp (k, v) (List.mem_cons_self _ _)
    cases v with
    | none => simp at hv
    | some d =>
      rw [collectFailures, ih (fun kv2 h2 => hp kv2 (List.mem_cons_of_mem _ h2))]
      dsimp only
      cases he : alookup d "exception" with
      | none => simp [failuresOf, List.filterMap_cons, failureVal, he]
      | some w => cases w <;> simp [failuresOf, List.filterMap_cons, failureVal, he]

theorem failureVal_eq_none (v : Option Dict) :
    failureVal v = Option.none ↔ isFailureEntry v = false := by
  cases v with
  | none => simp [failureVal, isFailureEntry]
  | some d =>
    cases he : alookup d "exception" with
    | none => simp [failureVal, isFailureEntry, he]
    | some w => cases w <;> simp [failureVal, isFailureEntry, he]

theorem failuresOf_eq_nil (outcome : List (String × Option Dict)) :
    failuresOf outcome = [] ↔ ∀ kv ∈ outcome, isFailureEntry kv.2 = false := by
  rw [failuresOf, List.filterMap_eq_nil_iff]
  constructor
  · intro hall kv hm
    exact (failureVal_eq_none kv.2).mp (hall kv hm)
  · intro hall kv hm
    exact (failureVal_eq_none kv.2).mpr (hall kv hm)

theorem mem_failuresOf (outcome : List (String × Option Dict))
    (kv : String × Option Dict) (d : Dict) (v : PyVal)
    (hmem : kv ∈ outcome) (hd : kv.2 = some d)
    (he : alookup d "exception" = some v) (hnn : v ≠ PyVal.null) :
    v ∈ failuresOf outcome := by
  rw [failuresOf, List.mem_filterMap]
  refine ⟨kv, hmem, ?_⟩
  rw [failureVal.eq_def, hd]
  dsimp only
  rw [he]
  cases v <;> simp_all

/-- C6: over an outcome in which every collector call produced a result, the
orchestrator exits 0 when no profile yielded a Failure; and when at least one
profile did, it prints every failure message and exits with the nonzero code
`-1` via `exit(-1)`. -/
theorem C6_exit_codes (envs : String → Handler) (target : String)
    (profiles : List String) (outcome : List (String × Option Dict))
    (hrep : runReport envs target profiles [] = Except.ok outcome)
    (hser : (write_file (outcomeVal outcome) "account-data/stackset").isOk = true)
    (hp : ∀ kv ∈ outcome, kv.2.isSome = true) :
    ((∀ kv ∈ outcome, isFailureEntry kv.2 = false) →
      ∃ printed, run envs target profiles = Except.ok (printed, 0)) ∧
    ((∃ kv ∈ outcome, isFailureEntry kv.2 = true) →
      ∃ printed code, run envs target profiles = Except.ok (printed, code) ∧
        code ≠ 0 ∧
        ∀ kv ∈ outcome, ∀ d v, kv.2 = some d →
          alookup d "exception" = some v → v ≠ PyVal.null →
          pyStr v ∈ printed) := by
  obtain ⟨w, hw⟩ : ∃ w,
      write_file (outcomeVal outcome) "account-data/stackset" = Except.ok w := by
    cases hcase : write_file (outcomeVal outcome) "account-data/stackset" with
    | error e =>
      rw [hcase] at hser
      exact absurd hser (by simp [Except.isOk, Except.toBool])
    | ok w => exact ⟨w, rfl⟩
  have hcf := collectFailures_proper outcome hp
  have hrun : ∀ (sr : SummaryResult), print_summary outcome = Except.ok sr →
      run envs target profiles = Except.ok (sr.printed, sr.exitCode.getD 0) := by
    intro sr hps
    unfold run
    rw [hrep]
    dsimp only
    rw [hw]
    dsimp only
    rw [hps]
  constructor
  · intro hnf
    have hnil : failuresOf outcome = [] := (failuresOf_eq_nil outcome).mpr hnf
    have hps : print_summary outcome =
        Except.ok (SummaryResult.mk
          ["Summary: " ++ toString outcome.length ++ " APIs called. " ++
            toString (failuresOf outcome).length ++ " errors"]
          Option.none) := by
      rw [print_summary, hcf]
      dsimp only
      rw [hnil]
      rfl
    exact ⟨_, hrun _ hps⟩
  · intro hex
    obtain ⟨kv0, hkv0, hf0⟩ := hex
    have hne : failuresOf outcome ≠ [] := by
      intro hnil
      rw [failuresOf_eq_nil outcome] at hnil
      rw [hnil kv0 hkv0] at hf0
      exact Bool.noConfusion hf0
    obtain ⟨x, xs, hfo⟩ : ∃ x xs, failuresOf outcome = x :: xs := by
      cases hcase : failuresOf outcome with
      | nil => exact absurd hcase hne
      | cons x xs => exact ⟨x, xs, rfl⟩
    have hps : print_summary outcome =
        Except.ok (SummaryResult.mk
          (["Summary: " ++ toString outcome.length ++ " APIs called. " ++
              toString (failuresOf outcome).length ++ " errors",
            "Failures:"] ++ (failuresOf outcome).map pyStr)
          (some (-1))) := by
      rw [print_summary, hcf]
      dsimp only
      rw [hfo]
      rfl
    refine ⟨_, -1, hrun _ hps, by decide, ?_⟩
    intro kv hm d v hd he hnn
    have hvmem := mem_failuresOf outcome kv d v hm hd he hnn
    dsimp only
    exact List.mem_append_right _ (List.mem_map_of_mem pyStr hvmem)

/-- Witness for C6: the hypotheses and both conclusions; the failing branch at
the concrete mixed run (`a` succeeds, `b` fails), and the succeeding branch at
a run in which the only profile succeeds. -/
theorem C6_exit_codes_witness :
    runReport mixedEnvs "proj" ["a", "b"] [] = Except.ok wOutcome ∧
    (write_file (outcomeVal wOutcome) "account-data/stackset").isOk = true ∧
    (∃ printed code, run mixedEnvs "proj" ["a", "b"] = Except.ok (printed, code) ∧
      code ≠ 0 ∧
      ∀ kv ∈ wOutcome, ∀ d v, kv.2 = some d →
        alookup d "exception" = some v → v ≠ PyVal.null →
        pyStr v ∈ printed) ∧
    (∃ printed, run (fun _ => matchedHandler) "proj" ["a"] =
      Except.ok (printed, 0)) :=
  ⟨rfl, rfl,
    (C6_exit_codes mixedEnvs "proj" ["a", "b"] wOutcome rfl rfl
        (by intro kv h2; fin_cases h2 <;> rfl)).2
      ⟨("b", some [("exception", PyVal.str "AccessDenied")]),
        by simp [wOutcome], rfl⟩,
    (C6_exit_codes (fun _ => matchedHandler) "proj" ["a"]
        [("a", some [("outputs", PyVal.list [PyVal.str "o1"])])] rfl rfl
        (by intro kv h2; fin_cases h2; rfl)).1
      (by intro kv h2; fin_cases h2; rfl)⟩

theorem dumps_error_unique_aux :
    ∀ n : Nat,
      (∀ v : PyVal, sizeOf v ≤ n → ∀ lvl e, dumps v lvl = Except.error e →
        e = PyError.typeError "Unknown type") ∧
      (∀ xs : List PyVal, sizeOf xs ≤ n → ∀ lvl e,
        dumpsList xs lvl = Except.error e →
        e = PyError.typeError "Unknown type") ∧
      (∀ f : List (String × PyVal), sizeOf f ≤ n → ∀ lvl e,
        dumpsFields f lvl = Except.error e →
        e = PyError.typeError "Unknown type") := by
  intro n
  induction n using Nat.strong_induction_on with
  | _ n ih =>
    refine ⟨?_, ?_, ?_⟩
    · intro v hv lvl e he
      cases v with
      | str s => exact absurd he (by simp [dumps])
      | int m => exact absurd he (by simp [dumps])
      | bool b => exact absurd he (by simp [dumps])
      | null => exact absurd he (by simp [dumps])
      | datetime iso => exact absurd he (by simp [dumps, custom_serializer])
      | bytes t => exact absurd he (by simp [dumps, custom_serializer])
      | exc m =>
        rw [dumps] at he
        simp only [custom_serializer] at he
        injection he with he
        exact he.symm
      | other nm =>
        rw [dumps] at he
        simp only [custom_serializer] at he
        injection he with he
        exact he.symm
      | list xs =>
        have hsz : sizeOf xs < n := by
          simp only [PyVal.list.sizeOf_spec] at hv
          omega
        rw [dumps] at he
        split at he
        · next e2 heq =>
          injection he with he
          subst he
          exact (ih (sizeOf xs) hsz).2.1 xs (le_refl _) (lvl + 1) e2 heq
        · exact Except.noConfusion he
        · exact Except.noConfusion he
      | dict f =>
        have hsz : sizeOf f < n := by
          simp only [PyVal.dict.sizeOf_spec] at hv
          omega
        rw [dumps] at he
        split at he
        · next e2 heq =>
          injection he with he
          subst he
          exact (ih (sizeOf f) hsz).2.2 f (le_refl _) (lvl + 1) e2 heq
        · exact Except.noConfusion he
        · exact Except.noConfusion he
    · intro xs hxs lvl e he
      cases xs with
      | nil => exact absurd he (by simp [dumpsList])
      | cons v rest =>
        have hv : sizeOf v < n := by
          simp only [List.cons.sizeOf_spec] at hxs
          omega
        have hrest : sizeOf rest < n := by
          simp only [List.cons.sizeOf_spec] at hxs
          omega
        rw [dumpsList] at he
        split at he
        · next e2 heq =>
          injection he with he
          subst he
          exact (ih (sizeOf v) hv).1 v (le_refl _) lvl e2 heq
        · next sv heq =>
          split at he
          · next e2 heq2 =>
            injection he with he
            subst he
            exact (ih (sizeOf rest) hrest).2.1 rest (le_refl _) lvl e2 heq2
          · exact Except.noConfusion he
    · intro f hf lvl e he
      cases f with
      | nil => exact absurd he (by simp [dumpsFields])
      | cons kv rest =>
        obtain ⟨k, v⟩ := kv
        have hv : sizeOf v < n := by
          simp only [List.cons.sizeOf_spec, Prod.mk.sizeOf_spec] at hf
          omega
        have hrest : sizeOf rest < n := by
          simp only [List.cons.sizeOf_spec] at hf
          omega
        rw [dumpsFields] at he
        split at he
        · next e2 heq =>
          injection he with he
          subst he
          exact (ih (sizeOf v) hv).1 v (le_refl _) lvl e2 heq
        · next sv heq =>
          split at he
          · next e2 heq2 =>
            injection he with he
            subst he
            exact (ih (sizeOf rest) hrest).2.2 rest (le_refl _) lvl e2 heq2
          · exact Except.noConfusion he

theorem dumps_error_unique (v : PyVal) (lvl : Nat) (e : PyError)
    (he : dumps v lvl = Except.error e) :
    e = PyError.typeError "Unknown type" :=
  (dumps_error_unique_aux (sizeOf v)).1 v (le_refl _) lvl e he

theorem dumpsFields_ok (f : List (String × PyVal)) (lvl : Nat)
    (h : fieldsRenderOk f lvl) :
    dumpsFields f lvl = Except.ok (f.map (renderV lvl)) := by
  induction f with
  | nil => rfl
  | cons kv rest ih =>
    obtain ⟨k, v⟩ := kv
    have hv := h (k, v) (List.mem_cons_self _ _)
    obtain ⟨sv, hsv⟩ : ∃ sv, dumps v lvl = Except.ok sv := by
      cases hc : dumps v lvl with
      | error e => rw [hc] at hv; exact absurd hv (by simp [Except.isOk, Except.toBool])
      | ok sv => exact ⟨sv, rfl⟩
    rw [dumpsFields, hsv, ih (fun kv2 h2 => h kv2 (List.mem_cons_of_mem _ h2))]
    dsimp only
    rw [List.map_cons]
    simp [renderV, hsv]

theorem dumpsFields_err (f : List (String × PyVal)) (lvl : Nat)
    (h : ¬ fieldsRenderOk f lvl) :
    dumpsFields f lvl = Except.error (PyError.typeError "Unknown type") := by
  induction f with
  | nil => exact absurd (fun kv hm => absurd hm (List.not_mem_nil kv)) h
  | cons kv rest ih =>
    obtain ⟨k, v⟩ := kv
    cases hc : dumps v lvl with
    | error e =>
      have he := dumps_error_unique v lvl e hc
      subst he
      rw [dumpsFields, hc]
    | ok sv =>
      have hrest : ¬ fieldsRenderOk rest lvl := by
        intro hok
        refine h (fun kv2 hm => ?_)
        rcases List.mem_cons.mp hm with h1 | h2
        · subst h1; simp [hc, Except.isOk, Except.toBool]
        · exact hok kv2 h2
      rw [dumpsFields, hc, ih hrest]

theorem fieldsRenderOk_perm (f f' : List (String × PyVal)) (lvl : Nat)
    (hperm : f.Perm f') (h : fieldsRenderOk f lvl) : fieldsRenderOk f' lvl :=
  fun kv hm => h kv (hperm.mem_iff.mpr hm)

theorem sorted_strict_of_keys_nodup (m : List (String × String))
    (hs : List.Sorted (fun a b : String × String => a.1 ≤ b.1) m)
    (hn : (m.map Prod.fst).Nodup) :
    List.Sorted (fun a b : String × String => a.1 < b.1) m := by
  have hpw : m.Pairwise (fun a b => a.1 ≠ b.1) := List.pairwise_map.mp hn
  exact (hs.and hpw).imp fun h => lt_of_le_of_ne h.1 h.2

theorem sortPairs_perm_eq (l l' : List (String × String))
    (hperm : l.Perm l') (hnd : (l.map Prod.fst).Nodup) :
    sortPairs l = sortPairs l' := by
  have hs1 := List.sorted_insertionSort (fun a b : String × String => a.1 ≤ b.1) l
  have hs2 := List.sorted_insertionSort (fun a b : String × String => a.1 ≤ b.1) l'
  have hp : (sortPairs l).Perm (sortPairs l') :=
    (List.perm_insertionSort _ l).trans
      (hperm.trans (List.perm_insertionSort _ l').symm)
  have hnd1 : ((sortPairs l).map Prod.fst).Nodup :=
    (((List.perm_insertionSort _ l).map Prod.fst).nodup_iff).mpr hnd
  have hnd2 : ((sortPairs l').map Prod.fst).Nodup :=
    ((hp.map Prod.fst).nodup_iff).mp hnd1
  exact List.eq_of_perm_of_sorted hp
    (sorted_strict_of_keys_nodup _ hs1 hnd1)
    (sorted_strict_of_keys_nodup _ hs2 hnd2)

theorem dumps_dict_perm (f f' : List (String × PyVal))
    (hnd : (f.map Prod.fst).Nodup) (hperm : f.Perm f') :
    dumps (PyVal.dict f) 0 = dumps (PyVal.dict f') 0 := by
  by_cases hok : fieldsRenderOk f 1
  · have hok' := fieldsRenderOk_perm f f' 1 hperm hok
    have hkeys : ((f.map (renderV 1)).map Prod.fst).Nodup := by
      have hmm : (f.map (renderV 1)).map Prod.fst = f.map Prod.fst := by
        rw [List.map_map]
        rfl
      rw [hmm]
      exact hnd
    have hsp : sortPairs (f.map (renderV 1)) = sortPairs (f'.map (renderV 1)) :=
      sortPairs_perm_eq _ _ (hperm.map (renderV 1)) hkeys
    cases hmap : f.map (renderV 1) with
    | nil =>
      have hf : f = [] := List.map_eq_nil_iff.mp hmap
      subst hf
      have hf' : f' = [] := hperm.symm.eq_nil
      subst hf'
      rfl
    | cons a as =>
      obtain ⟨a2, as2, hmap2⟩ :
          ∃ a2 as2, f'.map (renderV 1) = a2 :: as2 := by
        cases hm2 : f'.map (renderV 1) with
        | nil =>
          have := (hperm.map (renderV 1)).symm
          rw [hmap, hm2] at this
          exact absurd this.symm (by simp)
        | cons a2 as2 => exact ⟨a2, as2, rfl⟩
      rw [hmap, hmap2] at hsp
      rw [dumps, dumps, dumpsFields_ok f 1 hok, dumpsFields_ok f' 1 hok',
        hmap, hmap2]
      dsimp only
      rw [hsp]
  · have hok' : ¬ fieldsRenderOk f' 1 :=
      fun hc => hok (fieldsRenderOk_perm f' f 1 hperm.symm hc)
    rw [dumps, dumps, dumpsFields_err f 1 hok, dumpsFields_err f' 1 hok']

/-- C7 counterexample: serializing a value of (Python) type `frozenset` makes
`custom_serializer` raise a `TypeError` whose message is the fixed string
`Unknown type`; the message does not contain the name of the unconvertible
type, refuting the part of the claim that says the raised error carries a
message naming that type. -/
theorem C7_counterexample :
    custom_serializer (PyVal.other "frozenset") =
      Except.error (PyError.typeError "Unknown type") ∧
    dumps (PyVal.dict [("a", PyVal.other "frozenset")]) 0 =
      Except.error (PyError.typeError "Unknown type") ∧
    containsSub "Unknown type" "frozenset" = false :=
  ⟨rfl, rfl, by decide⟩

/-- C7 (amended): report serialization is deterministic — a dict's rendering
depends only on its key-value set, because entries are emitted in sorted key
order — and uses a 4-space indent per nesting level; datetime values render
as their (quoted) ISO-8601 string and bytes values as their decoded text; a
value of any unrecognized type makes the serializer raise a `TypeError`
before any document text is produced, so no partial report is written — but
the raised message is the fixed string `Unknown type`, which does not name
the unconvertible type. -/
theorem C7_serialization (f f' : List (String × PyVal))
    (hnd : (f.map Prod.fst).Nodup) (hperm : f.Perm f') :
    dumps (PyVal.dict f) 0 = dumps (PyVal.dict f') 0 ∧
    (∀ iso lvl, dumps (PyVal.datetime iso) lvl = Except.ok (jquote iso)) ∧
    (∀ text lvl, dumps (PyVal.bytes text) lvl = Except.ok (jquote text)) ∧
    dumps (PyVal.dict [("Url", PyVal.str "x")]) 0 =
      Except.ok "\x7b\n    \"Url\": \"x\"\n\x7d" ∧
    (∀ nm lvl, dumps (PyVal.other nm) lvl =
      Except.error (PyError.typeError "Unknown type")) ∧
    (∀ nm path, write_file (PyVal.other nm) path =
      Except.error (PyError.typeError "Unknown type")) :=
  ⟨dumps_dict_perm f f' hnd hperm, fun _ _ => rfl, fun _ _ => rfl, rfl,
    fun _ _ => rfl, fun _ _ => rfl⟩

/-- Witness for C7 (amended): the hypotheses and the conclusions at a
concrete two-entry dict and its reordering. -/
theorem C7_serialization_witness :
    (([("b", PyVal.str "1"), ("a", PyVal.str "2")] :
        List (String × PyVal)).map Prod.fst).Nodup ∧
    dumps (PyVal.dict [("b", PyVal.str "1"), ("a", PyVal.str "2")]) 0 =
      dumps (PyVal.dict [("a", PyVal.str "2"), ("b", PyVal.str "1")]) 0 ∧
    dumps (PyVal.datetime "2020-01-01T00:00:00") 3 =
      Except.ok (jquote "2020-01-01T00:00:00") ∧
    dumps (PyVal.bytes "hello") 0 = Except.ok (jquote "hello") ∧
    write_file (PyVal.other "frozenset") "account-data/stackset" =
      Except.error (PyError.typeError "Unknown type") :=
  ⟨by decide,
    (C7_serialization [("b", PyVal.str "1"), ("a", PyVal.str "2")]
      [("a", PyVal.str "2"), ("b", PyVal.str "1")] (by decide)
      (List.Perm.swap ("a", PyVal.str "2") ("b", PyVal.str "1") [])).1,
    (C7_serialization [("b", PyVal.str "1"), ("a", PyVal.str "2")]
      [("a", PyVal.str "2"), ("b", PyVal.str "1")] (by decide)
      (List.Perm.swap ("a", PyVal.str "2") ("b", PyVal.str "1") [])).2.1
      "2020-01-01T00:00:00" 3,
    (C7_serialization [("b", PyVal.str "1"), ("a", PyVal.str "2")]
      [("a", PyVal.str "2"), ("b", PyVal.str "1")] (by decide)
      (List.Perm.swap ("a", PyVal.str "2") ("b", PyVal.str "1") [])).2.2.1
      "hello" 0,
    (C7_serialization [("b", PyVal.str "1"), ("a", PyVal.str "2")]
      [("a", PyVal.str "2"), ("b", PyVal.str "1")] (by decide)
      (List.Perm.swap ("a", PyVal.str "2") ("b", PyVal.str "1") [])).2.2.2.2.2
      "frozenset" "account-data/stackset"⟩

end StackOutputs
